import Mathlib

/-!
# SankalpAlarm — verification of the Motion-Authenticated Dismissal Engine

Shallow embedding of the algorithmic core of the SankalpAlarm repository:

* `AlarmSched` — the alarm scheduler (`utils/alarmManager.ts`):
  `shouldTrigger`, `markTriggered`, `getTimeUntilAlarm`.
* `DetectorA` — the step detector + anti-cheat validator embedded in
  `src/unnamed/part_001` (the `StepDetector` variant with
  `MIN_STEP_INTERVAL = 280`, a `[50,400]` ms excursion-duration check and a
  two-sided rhythm-variance band).
* `DetectorB` — the step detector + anti-cheat validator of
  `src/unnamed/part_002` (`components/StepDetector.tsx`, the variant with
  `MIN_STEP_INTERVAL = 300`, no excursion-duration check and an
  upper-bound-only rhythm check).

JavaScript numbers are modelled as rationals (`ℚ`) and epoch timestamps as
integers (`ℤ`, milliseconds).  The acceleration magnitude, computed in the
source as `Math.sqrt(x*x + y*y + z*z)`, is irrational in general, so a
sample carries its magnitude as a separate input field; none of the
verified properties depend on the arithmetic relation between the axes and
the magnitude.  UI-only effects (status strings, animations, vibration,
`console.log`) have no bearing on the verified state and are omitted.
-/

namespace AlarmSched

/-- The persisted alarm record (`interface Alarm` in `utils/alarmManager.ts`).
`id`, `requiredSteps` and `label` play no role in the scheduler logic
verified here and are omitted from the embedding. -/
structure Alarm where
  hour : Nat
  minute : Nat
  enabled : Bool
  days : List Nat
  lastTriggeredDate : Option String
  deriving Repr, DecidableEq

/-- A wall-clock instant as observed through the JavaScript `Date` API:
`getDay()`, `getHours()`, `getMinutes()`, `getSeconds()`,
`getMilliseconds()` and `toDateString()`. -/
structure Instant where
  dayOfWeek : Nat
  hour : Nat
  minute : Nat
  second : Nat
  millis : Nat
  dateString : String
  deriving Repr, DecidableEq

/-- Milliseconds since local midnight of the instant's calendar date
(the time-of-day part of `Date.getTime()`). -/
def Instant.msSinceMidnight (n : Instant) : Int :=
  (((n.hour * 60 + n.minute) * 60 + n.second) * 1000 + n.millis : Nat)

/-- Embedding of `AlarmManager.shouldTrigger`, specialised to a successfully-loaded
alarm (`loadAlarm` returning `null` yields `false` trivially in the
source).  Mirrors the branch structure of `utils/alarmManager.ts`:
disabled → false; day not scheduled → false; already triggered today →
false; otherwise true exactly on the minute of the alarm or the minute
after. -/
def shouldTrigger (alarm : Alarm) (now : Instant) : Bool :=
  if !alarm.enabled then false
  else if !(alarm.days.contains now.dayOfWeek) then false
  else if alarm.lastTriggeredDate = some now.dateString then false
  else if now.hour = alarm.hour ∧
      (now.minute = alarm.minute ∨ now.minute = alarm.minute + 1) then true
  else false

/-- Embedding of `AlarmManager.markTriggered`: store today's `toDateString()` in the
alarm's `lastTriggeredDate`. -/
def markTriggered (alarm : Alarm) (now : Instant) : Alarm :=
  { alarm with lastTriggeredDate := some now.dateString }

/-- Embedding of `AlarmManager.resetTriggeredStatus`: clear `lastTriggeredDate`. -/
def resetTriggeredStatus (alarm : Alarm) : Alarm :=
  { alarm with lastTriggeredDate := none }

/-- The `for (let i = 1; i <= 7; i++) { ... break }` search of
`getTimeUntilAlarm`, written with explicit fuel: starting at day offset
`i`, return the first offset `≤ 7` whose weekday is in `days`. -/
def searchLoop (days : List Nat) (currentDay : Nat) : Nat → Nat → Option Nat
  | 0, _ => none
  | fuel + 1, i =>
    if 7 < i then none
    else if days.contains ((currentDay + i) % 7) then some i
    else searchLoop days currentDay fuel (i + 1)

/-- The `daysToAdd` value as computed by `getTimeUntilAlarm`: the first day offset in
`1..7` whose weekday is scheduled, defaulting to `1` when the loop finds
none (the `let daysToAdd = 1` initialisation in the source). -/
def daysToAdd (days : List Nat) (currentDay : Nat) : Nat :=
  (searchLoop days currentDay 7 1).getD 1

/-- Result record of `getTimeUntilAlarm`. -/
structure TimeUntil where
  hours : Int
  minutes : Int
  seconds : Int
  totalSeconds : Int
  deriving Repr, DecidableEq

/-- Milliseconds since local midnight of the candidate fire instant
`alarmTime.setHours(alarm.hour, alarm.minute, 0, 0)`. -/
def alarmBaseMs (alarm : Alarm) : Int :=
  ((alarm.hour * 60 + alarm.minute) * 60000 : Nat)

/-- Embedding of `AlarmManager.getTimeUntilAlarm`.  The candidate fire instant is today
at `alarm.hour:alarm.minute`; if it is at or before `now`, or the alarm
already triggered today, the fire instant is pushed forward by
`daysToAdd` days (`alarmTime.setDate(alarmTime.getDate() + daysToAdd)`,
one day being 86 400 000 ms).  `Math.floor` is integer floor-division
(`Int.fdiv`); the JavaScript `%` operator truncates toward zero
(`Int.tmod`). -/
def getTimeUntilAlarm (alarm : Alarm) (now : Instant) : TimeUntil :=
  let nowMs := now.msSinceMidnight
  let base := alarmBaseMs alarm
  let fire :=
    if base ≤ nowMs ∨ alarm.lastTriggeredDate = some now.dateString then
      base + (daysToAdd alarm.days now.dayOfWeek : Int) * 86400000
    else base
  let diff := fire - nowMs
  let totalSeconds := diff.fdiv 1000
  ⟨totalSeconds.fdiv 3600, ((totalSeconds.tmod 3600).fdiv 60),
    totalSeconds.tmod 60, totalSeconds⟩

/-- The weekday 1–5 / 06:30 alarm used by the spec's acceptance examples. -/
def exAlarm : Alarm :=
  { hour := 6, minute := 30, enabled := true, days := [1, 2, 3, 4, 5],
    lastTriggeredDate := none }

/-- Monday 07:00:00.000. -/
def exMonday7 : Instant :=
  { dayOfWeek := 1, hour := 7, minute := 0, second := 0, millis := 0,
    dateString := "Mon Oct 06 2025" }

/-- Monday 06:31:00.000 (same calendar date as `exMonday7`). -/
def exMonday631 : Instant :=
  { dayOfWeek := 1, hour := 6, minute := 31, second := 0, millis := 0,
    dateString := "Mon Oct 06 2025" }

/-- Tuesday 06:30:00.000, the next enabled day. -/
def exTuesday630 : Instant :=
  { dayOfWeek := 2, hour := 6, minute := 30, second := 0, millis := 0,
    dateString := "Tue Oct 07 2025" }

/-- An every-day alarm whose minute field is 59. -/
def alarm59 : Alarm :=
  { hour := 23, minute := 59, enabled := true, days := [0, 1, 2, 3, 4, 5, 6],
    lastTriggeredDate := none }

/-- Wednesday 23:59:00.000. -/
def inst2359 : Instant :=
  { dayOfWeek := 3, hour := 23, minute := 59, second := 0, millis := 0,
    dateString := "Wed Oct 08 2025" }

end AlarmSched

namespace StepCore

/-- The `push` + `if (length > cap) shift()` pattern used for every rolling
buffer in both step detectors: append `v`, then drop the oldest entry when
the bound `cap` is exceeded. -/
def pushBounded {α : Type} (l : List α) (v : α) (cap : Nat) : List α :=
  if cap < (l ++ [v]).length then (l ++ [v]).tail else l ++ [v]

/-- JavaScript `arr.slice(-n)`: the last `n` entries (the whole list when
it is shorter). -/
def takeLastN {α : Type} (l : List α) (n : Nat) : List α :=
  l.drop (l.length - n)

/-- The `reduce((a, b) => a + b, 0) / length` idiom.  On the empty list the
source produces `NaN`; every use in the source is guarded by a length
check, and `ℚ` division by zero yields `0` here. -/
def mean (l : List ℚ) : ℚ :=
  l.sum / l.length

/-- Consecutive differences `arr[i] - arr[i-1]`, as built by the
`for (let i = 1; i < length; i++)` interval loops. -/
def diffs : List Int → List Int
  | a :: b :: rest => (b - a) :: diffs (b :: rest)
  | _ => []

/-- One accelerometer callback: the axis readings, the magnitude the source
computes as `Math.sqrt(x*x + y*y + z*z)` (supplied as an input because the
square root is irrational in general), and the `Date.now()` timestamp in
milliseconds. -/
structure Sample where
  x : ℚ
  y : ℚ
  z : ℚ
  mag : ℚ
  t : Int
  deriving Repr, DecidableEq

/-- The times `l` are spaced at least `gap` apart, consecutively, starting
from the anchor `t0`. -/
def chainFrom (gap : Int) : Int → List Int → Prop
  | _, [] => True
  | t0, t :: rest => gap ≤ t - t0 ∧ chainFrom gap t rest

end StepCore

namespace DetectorA

open StepCore

/-- One `{x, y, z}` entry of `movementBufferRef`. -/
structure Vec3 where
  x : ℚ
  y : ℚ
  z : ℚ
  deriving Repr, DecidableEq

/-- The mutable refs of the `StepDetector` variant in `src/unnamed/part_001`
(`stepCountRef`, `magnitudeHistoryRef`, `stepTimesRef`, `lastStepTimeRef`,
`lastPeakTimeRef`, `isInStepRef`, `baselineRef`, `movementBufferRef`,
`peakMagnitudesRef`, `valleyMagnitudesRef`). -/
structure State where
  stepCount : Nat
  magnitudeHistory : List ℚ
  stepTimes : List Int
  lastStepTime : Int
  lastPeakTime : Int
  isInStep : Bool
  baseline : ℚ
  movementBuffer : List Vec3
  peakMagnitudes : List ℚ
  valleyMagnitudes : List ℚ
  deriving Repr, DecidableEq

/-- The state after `startDetection` resets every ref
(`baselineRef.current = 1`, everything else zero/empty). -/
def initState : State :=
  ⟨0, [], [], 0, 0, false, 1, [], [], []⟩

/-- Rejection reasons of `validateStepPattern`, in place of the source's
status strings. -/
inductive Reason
  | robotic
  | erratic
  | vertical
  deriving Repr, DecidableEq

/-- Return value of `validateStepPattern`. -/
structure ValidationResult where
  isValid : Bool
  isWalking : Bool
  reason : Option Reason
  deriving Repr, DecidableEq

/-- Embedding of `calculateRhythmVariance`: coefficient of variation (mean
absolute deviation over mean) of the consecutive step-time intervals, with
the `0.3` fallback below 3 recorded step times. -/
def calculateRhythmVariance (stepTimes : List Int) : ℚ :=
  if stepTimes.length < 3 then 0.3
  else
    let intervals := diffs stepTimes
    if intervals.length = 0 then 0.3
    else
      let avgInterval := mean (intervals.map fun i => (i : ℚ))
      let variance := mean (intervals.map fun i => |(i : ℚ) - avgInterval|)
      variance / avgInterval

/-- Embedding of `calculateVariance`: population variance of a list. -/
def calculateVariance (values : List ℚ) : ℚ :=
  if values.length = 0 then 0
  else
    let m := mean values
    (values.map fun v => (v - m) ^ 2).sum / values.length

/-- Embedding of `checkIfOnlyVerticalMovement`: over the last 15 movement
samples, flag when the y-axis accounts for more than 85% of the combined
per-axis variance. -/
def checkIfOnlyVerticalMovement (movementBuffer : List Vec3) : Bool :=
  if movementBuffer.length < 10 then false
  else
    let recentMovement := takeLastN movementBuffer 15
    let xVariance := calculateVariance (recentMovement.map (·.x))
    let yVariance := calculateVariance (recentMovement.map (·.y))
    let zVariance := calculateVariance (recentMovement.map (·.z))
    let totalVariance := xVariance + yVariance + zVariance
    if totalVariance = 0 then false
    else decide ((0.85 : ℚ) < yVariance / totalVariance)

/-- Embedding of `validateStepPattern` (`MIN_STEPS_TO_VALIDATE = 2`,
`MIN_RHYTHM_VARIANCE = 0.05`, `MAX_RHYTHM_VARIANCE = 0.6`).  The `now`
parameter of the source is unused in its body and dropped here. -/
def validateStepPattern (s : State) : ValidationResult :=
  if s.stepTimes.length < 2 then ⟨true, false, none⟩
  else
    let variance := calculateRhythmVariance s.stepTimes
    if variance < 0.05 ∧ 4 ≤ s.stepTimes.length then ⟨false, false, some .robotic⟩
    else if 0.6 < variance ∧ 4 ≤ s.stepTimes.length then ⟨false, false, some .erratic⟩
    else if checkIfOnlyVerticalMovement s.movementBuffer ∧ 3 ≤ s.stepTimes.length then
      ⟨false, false, some .vertical⟩
    else
      ⟨true,
        decide ((0.05 : ℚ) ≤ variance ∧ variance ≤ 0.6 ∧ 3 ≤ s.stepTimes.length),
        none⟩

/-- A counted step: completion time, valley magnitude, and the
above-threshold excursion duration `peakDuration`. -/
structure StepEvent where
  t : Int
  mag : ℚ
  dur : Int
  deriving Repr, DecidableEq

/-- Observable outcome of one sample: a counted step, or a candidate step
rejected by `validateStepPattern` (observable in the source through the
warning status and the unchanged counter). -/
inductive Outcome
  | step (e : StepEvent)
  | rejected (t : Int) (r : Option Reason)
  deriving Repr, DecidableEq

/-- Discriminator for rejected outcomes (shallow: looks only at the
constructor). -/
def Outcome.isRejected : Outcome → Bool
  | .rejected _ _ => true
  | .step _ => false

/-- Embedding of `detectStep` (`MIN_PEAK_MAGNITUDE = 0.12`,
`MIN_STEP_INTERVAL = 280`, excursion-duration window `[50, 400]` ms). -/
def detectStep (s : State) (magnitude threshold deviation : ℚ) (now : Int) :
    State × Option Outcome :=
  let timeSinceLastStep := now - s.lastStepTime
  let s1 :=
    if threshold < magnitude ∧ s.isInStep = false ∧ (0.12 : ℚ) < deviation then
      { s with isInStep := true, lastPeakTime := now,
               peakMagnitudes := pushBounded s.peakMagnitudes magnitude 10 }
    else s
  if magnitude < threshold ∧ s1.isInStep = true then
    let s2 := { s1 with isInStep := false,
                        valleyMagnitudes := pushBounded s1.valleyMagnitudes magnitude 10 }
    let peakDuration := now - s2.lastPeakTime
    if peakDuration < 50 ∨ 400 < peakDuration then (s2, none)
    else if timeSinceLastStep < 280 then (s2, none)
    else
      let v := validateStepPattern s2
      if v.isValid then
        ({ s2 with stepCount := s2.stepCount + 1,
                   stepTimes := pushBounded s2.stepTimes now 10,
                   lastStepTime := now },
          some (.step ⟨now, magnitude, peakDuration⟩))
      else (s2, some (.rejected now v.reason))
  else (s1, none)

/-- Embedding of `processMovement` (`MOVEMENT_WINDOW = 30`,
`STEP_THRESHOLD_MULTIPLIER = 1.08`): update the rolling buffers, refresh
the baseline once the window holds at least 10 magnitudes, then run
`detectStep` with the dynamic threshold. -/
def processMovement (s : State) (p : Sample) : State × Option Outcome :=
  let s1 := { s with
    movementBuffer := pushBounded s.movementBuffer ⟨p.x, p.y, p.z⟩ 30,
    magnitudeHistory := pushBounded s.magnitudeHistory p.mag 30 }
  let s2 :=
    if 10 ≤ s1.magnitudeHistory.length then
      { s1 with baseline := mean s1.magnitudeHistory }
    else s1
  let threshold := s2.baseline * 1.08
  let deviation := p.mag - s2.baseline
  detectStep s2 p.mag threshold deviation p.t

/-- Feed a list of samples through `processMovement`, collecting the
outcomes in order. -/
def run : State → List Sample → State × List Outcome
  | s, [] => (s, [])
  | s, p :: rest =>
    let r1 := processMovement s p
    let r2 := run r1.1 rest
    (r2.1, r1.2.toList ++ r2.2)

/-- The counted steps among a list of outcomes. -/
def events (outs : List Outcome) : List StepEvent :=
  outs.filterMap fun o =>
    match o with
    | .step e => some e
    | .rejected _ _ => none

end DetectorA

namespace DetectorB

open StepCore

/-- One entry of `stepDataRef` (`interface StepData`). -/
structure StepData where
  t : Int
  magnitude : ℚ
  x : ℚ
  y : ℚ
  z : ℚ
  deriving Repr, DecidableEq

/-- The mutable refs of `components/StepDetector.tsx`
(`src/unnamed/part_002`).  `upCrossTime` is embedding instrumentation
recording when `isAboveThresholdRef` was last set, so that the excursion
duration of a counted step — which this variant of the detector never
inspects — can be stated as an observation. -/
structure State where
  stepCount : Nat
  validStepCount : Nat
  stepData : List StepData
  lastStepTime : Int
  stepIntervals : List Int
  isAboveThreshold : Bool
  consecutiveGoodSteps : Nat
  xMovementHistory : List ℚ
  upCrossTime : Int
  deriving Repr, DecidableEq

/-- State after `startDetection`; `lastStepTimeRef.current = Date.now()`
is the start instant `t0`. -/
def initState (t0 : Int) : State :=
  ⟨0, 0, [], t0, [], false, 0, [], t0⟩

/-- The rhythm-consistency score of `validateStep`: mean absolute
deviation of the intervals over their mean. -/
def rhythmScore (intervals : List Int) : ℚ :=
  let avgInterval := mean (intervals.map fun i => (i : ℚ))
  let variance := mean (intervals.map fun i => |(i : ℚ) - avgInterval|)
  variance / avgInterval

/-- The average absolute lateral sway
(`xMovementHistory.reduce(...) / length`, `0` on the empty history). -/
def avgSway (l : List ℚ) : ℚ :=
  if 0 < l.length then mean l else 0

/-- Embedding of `validateStep` (`MIN_STEP_INTERVAL = 300`,
`MAX_STEP_INTERVAL = 1500`, `MIN_X_MOVEMENT = 0.15`,
`RHYTHM_TOLERANCE = 0.5`).  Returns the verdict together with the updated
state (`consecutiveGoodStepsRef`, and the rhythm reset on
over-long intervals). -/
def validateStep (s : State) (interval : Int) : Bool × State :=
  if interval < 300 then (false, { s with consecutiveGoodSteps := 0 })
  else if 1500 < interval then
    (true, { s with stepIntervals := [], consecutiveGoodSteps := 0 })
  else
    if avgSway s.xMovementHistory < 0.15 then
      (false, { s with consecutiveGoodSteps := 0 })
    else if 3 ≤ s.stepIntervals.length then
      if (0.5 : ℚ) < rhythmScore (takeLastN s.stepIntervals 5) then
        (false, { s with consecutiveGoodSteps := 0 })
      else (true, { s with consecutiveGoodSteps := s.consecutiveGoodSteps + 1 })
    else (true, { s with consecutiveGoodSteps := s.consecutiveGoodSteps + 1 })

/-- A raw counted step of this detector: completion time, the excursion
duration observed through the `upCrossTime` instrumentation, the interval
since the previous raw step, and the anti-cheat verdict. -/
structure Event where
  t : Int
  dur : Int
  interval : Int
  valid : Bool
  deriving Repr, DecidableEq

/-- The `x || 1` fallback applied to the average magnitude (on the empty
window the source division yields `NaN`, modelled as `0` here; both `NaN`
and `0` fall back to `1`). -/
def jsOrOne (q : ℚ) : ℚ :=
  if q = 0 then 1 else q

/-- The dynamic threshold of `processAccelerometerData`: 1.12 times the
average of the last 20 recorded magnitudes (with the `|| 1` fallback). -/
def dynThreshold (stepData : List StepData) : ℚ :=
  jsOrOne (mean ((takeLastN stepData 20).map (·.magnitude))) * 1.12

/-- The buffer updates at the top of `processAccelerometerData`: record
the lateral sway `|x|` (bound 20) and the full sample (bound 50). -/
def afterBuffers (s : State) (p : Sample) : State :=
  { s with
    xMovementHistory := pushBounded s.xMovementHistory |p.x| 20,
    stepData := pushBounded s.stepData ⟨p.t, p.mag, p.x, p.y, p.z⟩ 50 }

/-- The body of the `timeSinceLastStep >= MIN_STEP_INTERVAL` branch of
`processAccelerometerData`: count the raw step, run the anti-cheat
validator (counting the valid step on success), then record the interval
and advance `lastStepTimeRef` — valid or not. -/
def commitStep (s3 : State) (t tsls : Int) : State × Option Event :=
  let s4 := { s3 with stepCount := s3.stepCount + 1 }
  let vr := validateStep s4 tsls
  let s5 :=
    if vr.1 then { vr.2 with validStepCount := vr.2.validStepCount + 1 }
    else vr.2
  ({ s5 with
      stepIntervals := pushBounded s5.stepIntervals tsls 10,
      lastStepTime := t },
    some ⟨t, t - s3.upCrossTime, tsls, vr.1⟩)

/-- Embedding of `processAccelerometerData`: rolling buffers, dynamic
threshold over the last 20 magnitudes, threshold-crossing step detection
with a 300 ms debounce, anti-cheat validation, and interval bookkeeping. -/
def processAccelerometerData (s : State) (p : Sample) : State × Option Event :=
  let s1 := afterBuffers s p
  let threshold := dynThreshold s1.stepData
  let s2 :=
    if threshold < p.mag ∧ s1.isAboveThreshold = false then
      { s1 with isAboveThreshold := true, upCrossTime := p.t }
    else s1
  if p.mag < threshold ∧ s2.isAboveThreshold = true then
    let s3 := { s2 with isAboveThreshold := false }
    let timeSinceLastStep := p.t - s3.lastStepTime
    if 300 ≤ timeSinceLastStep then commitStep s3 p.t timeSinceLastStep
    else (s3, none)
  else (s2, none)

/-- Feed a list of samples through `processAccelerometerData`, collecting
the raw step events in order. -/
def run : State → List Sample → State × List Event
  | s, [] => (s, [])
  | s, p :: rest =>
    let r1 := processAccelerometerData s p
    let r2 := run r1.1 rest
    (r2.1, r1.2.toList ++ r2.2)

end DetectorB

namespace Traces

open StepCore

/-- Ten samples for `DetectorA`: five peak/valley cycles 500 ms apart
(peaks of magnitude 2, valleys of magnitude 1, 100 ms excursions).  The
first four candidate steps are accepted; the fifth arrives with four
recorded step times and perfectly regular 500 ms intervals (coefficient of
variation 0), so `validateStepPattern` rejects it as robotic. -/
def regularA : List Sample :=
  [⟨0, 0, 0, 2, 900⟩, ⟨1, 0, 0, 1, 1000⟩,
   ⟨0, 0, 0, 2, 1400⟩, ⟨1, 0, 0, 1, 1500⟩,
   ⟨0, 0, 0, 2, 1900⟩, ⟨1, 0, 0, 1, 2000⟩,
   ⟨0, 0, 0, 2, 2400⟩, ⟨1, 0, 0, 1, 2500⟩,
   ⟨0, 0, 0, 2, 2900⟩, ⟨1, 0, 0, 1, 3000⟩]

/-- Three samples for `DetectorB`: an up-crossing at t = 1000 followed by
a down-crossing at t = 2000, i.e. a 1000 ms above-threshold excursion,
which this detector happily counts (it never inspects the excursion
duration). -/
def longExcursionB : List Sample :=
  [⟨0.5, 0, 0, 1, 900⟩, ⟨0.5, 0, 0, 2, 1000⟩, ⟨0.5, 0, 0, 1, 2000⟩]

/-- Eleven samples for `DetectorB`: five peak/valley cycles exactly 500 ms
apart with steady lateral sway.  All five raw steps validate, leaving an
interval history of five identical 500 ms intervals — rhythm score 0. -/
def regularB : List Sample :=
  [⟨0.5, 0, 0, 1, 300⟩, ⟨0.5, 0, 0, 2, 400⟩, ⟨0.5, 0, 0, 1, 500⟩,
   ⟨0.5, 0, 0, 2, 900⟩, ⟨0.5, 0, 0, 1, 1000⟩,
   ⟨0.5, 0, 0, 2, 1400⟩, ⟨0.5, 0, 0, 1, 1500⟩,
   ⟨0.5, 0, 0, 2, 1900⟩, ⟨0.5, 0, 0, 1, 2000⟩,
   ⟨0.5, 0, 0, 2, 2400⟩, ⟨0.5, 0, 0, 1, 2500⟩]

/-- A `DetectorB` state about to complete a step whose anti-cheat check
fails on the lateral-movement floor: the device is above threshold with no
sideways sway recorded. -/
def noSwayStateB : DetectorB.State :=
  { stepCount := 3, validStepCount := 3,
    stepData := [⟨0, 10, 0, 0, 0⟩], lastStepTime := 0,
    stepIntervals := [400, 400], isAboveThreshold := true,
    consecutiveGoodSteps := 3, xMovementHistory := [0, 0],
    upCrossTime := 500 }

/-- The sample completing the `noSwayStateB` step: a low magnitude at
t = 1000 drops below the dynamic threshold. -/
def noSwaySampleB : Sample := ⟨0, 0, 0, 1, 1000⟩

/-- A `DetectorA` state like the one `regularA` reaches just before its
last sample: four perfectly regular step times recorded and an excursion
in progress since t = 2900. -/
def roboticStateA : DetectorA.State :=
  { stepCount := 4, magnitudeHistory := [2, 1, 2, 1, 2, 1, 2, 1, 2],
    stepTimes := [1000, 1500, 2000, 2500], lastStepTime := 2500,
    lastPeakTime := 2900, isInStep := true, baseline := 1,
    movementBuffer :=
      [⟨0, 0, 0⟩, ⟨1, 0, 0⟩, ⟨0, 0, 0⟩, ⟨1, 0, 0⟩, ⟨0, 0, 0⟩,
       ⟨1, 0, 0⟩, ⟨0, 0, 0⟩, ⟨1, 0, 0⟩, ⟨0, 0, 0⟩],
    peakMagnitudes := [2, 2, 2, 2, 2], valleyMagnitudes := [1, 1, 1, 1] }

/-- The valley sample completing the `roboticStateA` candidate step at
t = 3000 (interval 500 ms, excursion 100 ms), which `validateStepPattern`
rejects for its zero rhythm variance. -/
def roboticSampleA : Sample := ⟨1, 0, 0, 1, 3000⟩

end Traces

namespace AlarmSched

/-- C1.  For every stored alarm and every wall-clock instant,
`shouldTrigger` returns `true` exactly when the alarm is enabled, the
current day-of-week is among the alarm's recurrence days,
`lastTriggeredDate` differs from today's calendar-date string, the current
hour equals the alarm hour, and the current minute is the alarm minute or
the alarm minute plus one; in every other case it returns `false`. -/
theorem shouldTrigger_iff (alarm : Alarm) (now : Instant) :
    shouldTrigger alarm now = true ↔
      alarm.enabled = true ∧
      now.dayOfWeek ∈ alarm.days ∧
      alarm.lastTriggeredDate ≠ some now.dateString ∧
      now.hour = alarm.hour ∧
      (now.minute = alarm.minute ∨ now.minute = alarm.minute + 1) := by
  unfold shouldTrigger
  split_ifs with h1 h2 h3 h4 <;> simp_all

theorem searchLoop_eq_some (days : List Nat) (d : Nat) :
    ∀ fuel i k, i ≤ k → k < i + fuel → k ≤ 7 →
      days.contains ((d + k) % 7) = true →
      (∀ j, i ≤ j → j < k → days.contains ((d + j) % 7) = false) →
      searchLoop days d fuel i = some k := by
  intro fuel
  induction fuel with
  | zero => intro i k hik hlt _ _ _; omega
  | succ n ih =>
    intro i k hik hlt h7 hc hmin
    unfold searchLoop
    rcases Nat.lt_or_ge 7 i with hi7 | hi7
    · omega
    · rw [if_neg (by omega)]
      rcases Nat.lt_or_ge i k with hikl | hike
      · have hci := hmin i le_rfl hikl
        have hci' : ¬ (days.contains ((d + i) % 7) = true) := by simpa using hci
        rw [if_neg hci',
          ih (i + 1) k (by omega) (by omega) h7 hc
            (fun j hj hjk => hmin j (by omega) hjk)]
      · have : i = k := le_antisymm hik hike
        subst this
        rw [if_pos hc]

theorem searchLoop_nil (d : Nat) :
    ∀ fuel i, searchLoop [] d fuel i = none := by
  intro fuel
  induction fuel with
  | zero => intro i; rfl
  | succ n ih =>
    intro i
    unfold searchLoop
    split_ifs with h hc
    · rfl
    · simp at hc
    · exact ih (i + 1)

/-- C2.  Once `markTriggered` has stored today's calendar-date string,
every `shouldTrigger` evaluation on the same calendar date returns
`false`, and on any instant with a different calendar date the scheduler
behaves exactly as if no trigger had been recorded — a date change alone
restores eligibility. -/
theorem markTriggered_dedup (alarm : Alarm) (t1 t2 t3 : Instant)
    (hsame : t2.dateString = t1.dateString)
    (hdiff : t3.dateString ≠ t1.dateString) :
    shouldTrigger (markTriggered alarm t1) t2 = false ∧
    shouldTrigger (markTriggered alarm t1) t3 =
      shouldTrigger (resetTriggeredStatus alarm) t3 := by
  constructor
  · unfold shouldTrigger markTriggered
    split_ifs with h1 h2 h3 h4 <;>
      first
        | rfl
        | exact absurd (by rw [hsame]) h3
  · have hne : ¬ ((some t1.dateString : Option String) = some t3.dateString) := by
      simpa using fun h => hdiff h.symm
    unfold shouldTrigger markTriggered resetTriggeredStatus
    simp only [eq_self_iff_true]
    rw [if_neg hne, if_neg (by simp : ¬ ((none : Option String) = some t3.dateString))]

/-- Witness for C2 at the spec's acceptance scenario: triggering at Monday
06:31 suppresses a second ring that minute, and Tuesday 06:30 behaves as
if untriggered. -/
theorem markTriggered_dedup_witness :
    shouldTrigger (markTriggered exAlarm exMonday631) exMonday631 = false ∧
    shouldTrigger (markTriggered exAlarm exMonday631) exTuesday630 =
      shouldTrigger (resetTriggeredStatus exAlarm) exTuesday630 :=
  markTriggered_dedup exAlarm exMonday631 exMonday631 exTuesday630 rfl (by decide)

/-- C5.  Under the forward-search branch (candidate instant at or before
now, or already triggered today), `getTimeUntilAlarm` returns the
countdown to the least day offset `k ∈ 1..7` whose weekday is scheduled;
in particular the spec's Monday 07:00 example yields 23 h 30 m to Tuesday
06:30. -/
theorem getTimeUntilAlarm_forward_search :
    (∀ (alarm : Alarm) (now : Instant) (k : Nat),
      (alarmBaseMs alarm ≤ now.msSinceMidnight ∨
        alarm.lastTriggeredDate = some now.dateString) →
      1 ≤ k → k ≤ 7 →
      alarm.days.contains ((now.dayOfWeek + k) % 7) = true →
      (∀ j, 1 ≤ j → j < k → alarm.days.contains ((now.dayOfWeek + j) % 7) = false) →
      (getTimeUntilAlarm alarm now).totalSeconds =
        (alarmBaseMs alarm + (k : Int) * 86400000 - now.msSinceMidnight).fdiv 1000) ∧
    getTimeUntilAlarm exAlarm exMonday7 = ⟨23, 30, 0, 84600⟩ := by
  constructor
  · intro alarm now k hbr hk1 hk7 hc hmin
    have hd : daysToAdd alarm.days now.dayOfWeek = k := by
      unfold daysToAdd
      rw [searchLoop_eq_some alarm.days now.dayOfWeek 7 1 k hk1 (by omega) hk7 hc
        (fun j hj hjk => hmin j hj hjk)]
      rfl
    simp only [getTimeUntilAlarm]
    rw [if_pos hbr, hd]
  · decide

/-- Witness for C5: the general forward-search clause instantiated at the
Monday 07:00 example with `k = 1`. -/
theorem getTimeUntilAlarm_forward_search_witness :
    (getTimeUntilAlarm exAlarm exMonday7).totalSeconds =
      (alarmBaseMs exAlarm + (1 : Int) * 86400000 - exMonday7.msSinceMidnight).fdiv 1000 :=
  getTimeUntilAlarm_forward_search.1 exAlarm exMonday7 1 (by decide) (by decide)
    (by decide) (by decide) (fun j h1 h2 => absurd h2 (by omega))

/-- C6 (amended).  With an empty recurrence-day set and the candidate
instant past (or the alarm already triggered today), the day search finds
nothing, `daysToAdd` keeps its default of 1, and `getTimeUntilAlarm`
returns the countdown to the NEXT day at the configured time; the search
terminates but no "no next occurrence" outcome exists. -/
theorem getTimeUntilAlarm_empty_days (alarm : Alarm) (now : Instant)
    (hempty : alarm.days = [])
    (hbr : alarmBaseMs alarm ≤ now.msSinceMidnight ∨
      alarm.lastTriggeredDate = some now.dateString) :
    daysToAdd alarm.days now.dayOfWeek = 1 ∧
    (getTimeUntilAlarm alarm now).totalSeconds =
      (alarmBaseMs alarm + 86400000 - now.msSinceMidnight).fdiv 1000 := by
  have hd : daysToAdd alarm.days now.dayOfWeek = 1 := by
    unfold daysToAdd
    rw [hempty, searchLoop_nil]
    rfl
  refine ⟨hd, ?_⟩
  simp only [getTimeUntilAlarm]
  rw [if_pos hbr, hd]
  norm_num

/-- Witness for the amended C6 at a concrete empty-days alarm. -/
theorem getTimeUntilAlarm_empty_days_witness :
    daysToAdd ({ exAlarm with days := [] } : Alarm).days exMonday7.dayOfWeek = 1 ∧
    (getTimeUntilAlarm { exAlarm with days := [] } exMonday7).totalSeconds =
      (alarmBaseMs { exAlarm with days := [] } + 86400000 -
        exMonday7.msSinceMidnight).fdiv 1000 :=
  getTimeUntilAlarm_empty_days _ _ rfl (by decide)

/-- Counterexample to C6 as stated: for an empty-days alarm whose
configured time has passed, `getTimeUntilAlarm` does not report a missing
next occurrence (its result type cannot express one) — it returns the
concrete countdown to the next day at the configured time. -/
theorem getTimeUntilAlarm_empty_days_cex :
    getTimeUntilAlarm { exAlarm with days := [] } exMonday7 =
      ⟨23, 30, 0, 84600⟩ := by decide

/-- C10.  For an enabled alarm with minute 59 that is scheduled today and
has not yet triggered today, `shouldTrigger` is `true` exactly during
minute 59 of the alarm hour: the `minute + 1` tolerance compares against
60, which no wall-clock minute equals, so the window never spills into the
next hour. -/
theorem shouldTrigger_minute59 (alarm : Alarm) (now : Instant)
    (hm : alarm.minute = 59) (hlt : now.minute < 60)
    (hen : alarm.enabled = true)
    (hday : alarm.days.contains now.dayOfWeek = true)
    (hded : alarm.lastTriggeredDate ≠ some now.dateString) :
    shouldTrigger alarm now = true ↔
      (now.hour = alarm.hour ∧ now.minute = 59) := by
  unfold shouldTrigger
  split_ifs with h1 h2 h3 <;> simp_all
  omega

/-- Witness for C10 at a 23:59 alarm evaluated at Wednesday 23:59. -/
theorem shouldTrigger_minute59_witness :
    shouldTrigger alarm59 inst2359 = true ↔
      (inst2359.hour = alarm59.hour ∧ inst2359.minute = 59) :=
  shouldTrigger_minute59 alarm59 inst2359 rfl (by decide) rfl (by decide) (by decide)

end AlarmSched

namespace StepCore

theorem pushBounded_length {α : Type} (l : List α) (v : α) (cap : Nat) :
    (pushBounded l v cap).length =
      if cap < l.length + 1 then l.length else l.length + 1 := by
  unfold pushBounded
  simp only [List.length_append, List.length_singleton]
  split_ifs with h
  · simp [List.length_tail]
  · simp

theorem pushBounded_length_le {α : Type} (l : List α) (v : α) (cap : Nat)
    (h : l.length ≤ cap) : (pushBounded l v cap).length ≤ cap := by
  rw [pushBounded_length]
  split_ifs <;> omega

theorem pushBounded_getLast {α : Type} (l : List α) (v : α) (cap : Nat)
    (h : 1 ≤ cap) : (pushBounded l v cap).getLast? = some v := by
  unfold pushBounded
  split_ifs with hc
  · cases l with
    | nil => simp at hc; omega
    | cons a t => simp [List.getLast?_concat]
  · exact List.getLast?_concat l

theorem pushBounded_evicts {α : Type} (l : List α) (v : α) (cap : Nat)
    (hlen : l.length = cap) (hpos : 0 < cap) :
    pushBounded l v cap = l.tail ++ [v] := by
  unfold pushBounded
  rw [if_pos (by simp [hlen])]
  cases l with
  | nil => simp_all
  | cons a t => simp

theorem chainFrom_nil (gap t0 : Int) : chainFrom gap t0 [] := trivial

theorem chainFrom_cons (gap t0 t : Int) (l : List Int) :
    chainFrom gap t0 (t :: l) = (gap ≤ t - t0 ∧ chainFrom gap t l) := rfl

theorem chainFrom_chain (gap : Int) :
    ∀ (l : List Int) (t0 : Int), chainFrom gap t0 l →
      List.Chain' (fun a b => gap ≤ b - a) l := by
  intro l
  induction l with
  | nil => intro t0 _; simp
  | cons t rest ih =>
    intro t0 h
    rw [chainFrom_cons] at h
    cases rest with
    | nil => simp
    | cons u rest2 =>
      rw [List.chain'_cons]
      rw [chainFrom_cons] at h
      exact ⟨h.2.1, ih t h.2⟩

end StepCore

namespace DetectorA

open StepCore

theorem processMovement_step (s : State) (p : Sample) (e : StepEvent)
    (h : (processMovement s p).2 = some (.step e)) :
    e.t = p.t ∧ 50 ≤ e.dur ∧ e.dur ≤ 400 ∧ 280 ≤ e.t - s.lastStepTime ∧
    (processMovement s p).1.lastStepTime = e.t ∧
    (processMovement s p).1.stepCount = s.stepCount + 1 ∧
    (processMovement s p).1.stepTimes = pushBounded s.stepTimes e.t 10 := by
  obtain ⟨et, em, ed⟩ := e
  simp only [processMovement, detectStep] at h ⊢
  split_ifs at h ⊢ <;> simp_all <;> omega

theorem processMovement_rejected (s : State) (p : Sample) (t : Int)
    (r : Option Reason) (h : (processMovement s p).2 = some (.rejected t r)) :
    (processMovement s p).1.lastStepTime = s.lastStepTime ∧
    (processMovement s p).1.stepCount = s.stepCount ∧
    (processMovement s p).1.stepTimes = s.stepTimes := by
  simp only [processMovement, detectStep] at h ⊢
  split_ifs at h ⊢ <;> simp_all

theorem processMovement_none (s : State) (p : Sample)
    (h : (processMovement s p).2 = none) :
    (processMovement s p).1.lastStepTime = s.lastStepTime ∧
    (processMovement s p).1.stepCount = s.stepCount ∧
    (processMovement s p).1.stepTimes = s.stepTimes := by
  simp only [processMovement, detectStep] at h ⊢
  split_ifs at h ⊢ <;> simp_all

theorem processMovement_buffers (s : State) (p : Sample) :
    (processMovement s p).1.movementBuffer =
      pushBounded s.movementBuffer ⟨p.x, p.y, p.z⟩ 30 ∧
    (processMovement s p).1.magnitudeHistory =
      pushBounded s.magnitudeHistory p.mag 30 ∧
    (processMovement s p).1.baseline =
      (if 10 ≤ (pushBounded s.magnitudeHistory p.mag 30).length
       then mean (pushBounded s.magnitudeHistory p.mag 30)
       else s.baseline) := by
  simp only [processMovement, detectStep]
  split_ifs <;> simp_all

theorem events_cons_step (e : StepEvent) (l : List Outcome) :
    events (.step e :: l) = e :: events l := by
  simp [events]

theorem events_cons_rejected (t : Int) (r : Option Reason) (l : List Outcome) :
    events (.rejected t r :: l) = events l := by
  simp [events]

theorem run_cons (s : State) (p : Sample) (rest : List Sample) :
    run s (p :: rest) =
      ((run (processMovement s p).1 rest).1,
        (processMovement s p).2.toList ++ (run (processMovement s p).1 rest).2) :=
  rfl

theorem run_spec : ∀ (samples : List Sample) (s : State),
    (∀ e ∈ events (run s samples).2, 50 ≤ e.dur ∧ e.dur ≤ 400) ∧
    chainFrom 280 s.lastStepTime ((events (run s samples).2).map (·.t)) ∧
    (run s samples).1.lastStepTime =
      ((events (run s samples).2).map (·.t)).getLastD s.lastStepTime := by
  intro samples
  induction samples with
  | nil =>
    intro s
    refine ⟨?_, ?_, ?_⟩ <;> simp [run, events, chainFrom]
  | cons p rest ih =>
    intro s
    rcases hpm : (processMovement s p).2 with _ | o
    · have hkeep := processMovement_none s p hpm
      have ihs := ih (processMovement s p).1
      rw [hkeep.1] at ihs
      simp only [run_cons, hpm, Option.toList_none, List.nil_append]
      exact ihs
    · cases o with
      | step e =>
        have hs := processMovement_step s p e hpm
        have ihs := ih (processMovement s p).1
        rw [hs.2.2.2.2.1] at ihs
        simp only [run_cons, hpm, Option.toList_some, List.singleton_append,
          events_cons_step, List.map_cons]
        refine ⟨?_, ?_, ?_⟩
        · intro e' he'
          rcases List.mem_cons.mp he' with rfl | hmem
          · exact ⟨hs.2.1, hs.2.2.1⟩
          · exact ihs.1 e' hmem
        · rw [chainFrom_cons]
          exact ⟨hs.2.2.2.1, ihs.2.1⟩
        · rw [List.getLastD_cons]
          exact ihs.2.2
      | rejected t r =>
        have hkeep := processMovement_rejected s p t r hpm
        have ihs := ih (processMovement s p).1
        rw [hkeep.1] at ihs
        simp only [run_cons, hpm, Option.toList_some, List.singleton_append,
          events_cons_rejected]
        exact ihs

theorem run_bounds : ∀ (samples : List Sample) (s : State),
    s.magnitudeHistory.length ≤ 30 → s.movementBuffer.length ≤ 30 →
    s.stepTimes.length ≤ 10 →
    (run s samples).1.magnitudeHistory.length ≤ 30 ∧
    (run s samples).1.movementBuffer.length ≤ 30 ∧
    (run s samples).1.stepTimes.length ≤ 10 := by
  intro samples
  induction samples with
  | nil => intro s h1 h2 h3; exact ⟨h1, h2, h3⟩
  | cons p rest ih =>
    intro s h1 h2 h3
    have hb := processMovement_buffers s p
    have hmag : (processMovement s p).1.magnitudeHistory.length ≤ 30 := by
      rw [hb.2.1]; exact pushBounded_length_le _ _ _ h1
    have hmov : (processMovement s p).1.movementBuffer.length ≤ 30 := by
      rw [hb.1]; exact pushBounded_length_le _ _ _ h2
    have hst : (processMovement s p).1.stepTimes.length ≤ 10 := by
      rcases hpm : (processMovement s p).2 with _ | o
      · rw [(processMovement_none s p hpm).2.2]; exact h3
      · cases o with
        | step e =>
          rw [(processMovement_step s p e hpm).2.2.2.2.2.2]
          exact pushBounded_length_le _ _ _ h3
        | rejected t r =>
          rw [(processMovement_rejected s p t r hpm).2.2]; exact h3
    have hrest := ih (processMovement s p).1 hmag hmov hst
    rw [run_cons]
    exact hrest

theorem run_baseline : ∀ (samples : List Sample) (s : State),
    (s.magnitudeHistory.length < 10 → s.baseline = 1) →
    (10 ≤ s.magnitudeHistory.length → s.baseline = mean s.magnitudeHistory) →
    (((run s samples).1.magnitudeHistory.length < 10 →
        (run s samples).1.baseline = 1) ∧
      (10 ≤ (run s samples).1.magnitudeHistory.length →
        (run s samples).1.baseline = mean (run s samples).1.magnitudeHistory)) := by
  intro samples
  induction samples with
  | nil => intro s hlow hhigh; exact ⟨hlow, hhigh⟩
  | cons p rest ih =>
    intro s hlow hhigh
    have hb := processMovement_buffers s p
    have hlow' : (processMovement s p).1.magnitudeHistory.length < 10 →
        (processMovement s p).1.baseline = 1 := by
      intro hlen
      rw [hb.2.1] at hlen
      rw [hb.2.2, if_neg (by omega)]
      apply hlow
      have hpl := pushBounded_length s.magnitudeHistory p.mag 30
      rw [hpl] at hlen
      split_ifs at hlen <;> omega
    have hhigh' : 10 ≤ (processMovement s p).1.magnitudeHistory.length →
        (processMovement s p).1.baseline =
          mean (processMovement s p).1.magnitudeHistory := by
      intro hlen
      rw [hb.2.1] at hlen
      rw [hb.2.2, hb.2.1, if_pos hlen]
    have hrest := ih (processMovement s p).1 hlow' hhigh'
    rw [run_cons]
    exact hrest

end DetectorA

namespace DetectorB

open StepCore

theorem validateStep_frame (s : State) (i : Int) :
    (validateStep s i).2.stepCount = s.stepCount ∧
    (validateStep s i).2.validStepCount = s.validStepCount ∧
    (validateStep s i).2.lastStepTime = s.lastStepTime ∧
    (validateStep s i).2.stepData = s.stepData ∧
    (validateStep s i).2.xMovementHistory = s.xMovementHistory ∧
    (validateStep s i).2.upCrossTime = s.upCrossTime ∧
    (validateStep s i).2.isAboveThreshold = s.isAboveThreshold ∧
    ((validateStep s i).2.stepIntervals = s.stepIntervals ∨
      (validateStep s i).2.stepIntervals = []) := by
  unfold validateStep
  split_ifs <;> simp

theorem afterBuffers_frame (s : State) (p : Sample) :
    (afterBuffers s p).stepCount = s.stepCount ∧
    (afterBuffers s p).validStepCount = s.validStepCount ∧
    (afterBuffers s p).lastStepTime = s.lastStepTime ∧
    (afterBuffers s p).stepIntervals = s.stepIntervals ∧
    (afterBuffers s p).isAboveThreshold = s.isAboveThreshold ∧
    (afterBuffers s p).upCrossTime = s.upCrossTime ∧
    (afterBuffers s p).xMovementHistory = pushBounded s.xMovementHistory |p.x| 20 ∧
    (afterBuffers s p).stepData = pushBounded s.stepData ⟨p.t, p.mag, p.x, p.y, p.z⟩ 50 :=
  ⟨rfl, rfl, rfl, rfl, rfl, rfl, rfl, rfl⟩

theorem commitStep_event (s3 : State) (t tsls : Int) :
    (commitStep s3 t tsls).2 =
      some ⟨t, t - s3.upCrossTime, tsls,
        (validateStep { s3 with stepCount := s3.stepCount + 1 } tsls).1⟩ := rfl

theorem commitStep_lastStepTime (s3 : State) (t tsls : Int) :
    (commitStep s3 t tsls).1.lastStepTime = t := rfl

theorem commitStep_getLast (s3 : State) (t tsls : Int) :
    (commitStep s3 t tsls).1.stepIntervals.getLast? = some tsls := by
  show (pushBounded _ tsls 10).getLast? = some tsls
  exact pushBounded_getLast _ _ _ (by omega)

theorem commitStep_validCount (s3 : State) (t tsls : Int)
    (h : (validateStep { s3 with stepCount := s3.stepCount + 1 } tsls).1 = false) :
    (commitStep s3 t tsls).1.validStepCount = s3.validStepCount := by
  obtain ⟨hc, hv, _, _, _, _, _, _⟩ :=
    validateStep_frame { s3 with stepCount := s3.stepCount + 1 } tsls
  simp only [commitStep, h]
  simp [hv]

theorem commitStep_buffers (s3 : State) (t tsls : Int) :
    (commitStep s3 t tsls).1.xMovementHistory = s3.xMovementHistory ∧
    (commitStep s3 t tsls).1.stepData = s3.stepData := by
  obtain ⟨_, _, _, hd, hx, _, _, _⟩ :=
    validateStep_frame { s3 with stepCount := s3.stepCount + 1 } tsls
  simp only [commitStep]
  split_ifs <;> simp_all

theorem commitStep_intervals (s3 : State) (t tsls : Int) :
    (commitStep s3 t tsls).1.stepIntervals = pushBounded s3.stepIntervals tsls 10 ∨
    (commitStep s3 t tsls).1.stepIntervals = pushBounded [] tsls 10 := by
  obtain ⟨_, _, _, _, _, _, _, hi⟩ :=
    validateStep_frame { s3 with stepCount := s3.stepCount + 1 } tsls
  rcases hi with hi | hi <;>
  · simp only [commitStep]
    split_ifs <;> simp_all

theorem commitStep_intervals_len (s3 : State) (t tsls : Int)
    (h : s3.stepIntervals.length ≤ 10) :
    (commitStep s3 t tsls).1.stepIntervals.length ≤ 10 := by
  rcases commitStep_intervals s3 t tsls with hi | hi <;> rw [hi]
  · exact pushBounded_length_le _ _ _ h
  · exact pushBounded_length_le _ _ _ (by simp)

theorem processData_event (s : State) (p : Sample) (e : Event)
    (h : (processAccelerometerData s p).2 = some e) :
    e.t = p.t ∧ e.interval = p.t - s.lastStepTime ∧ 300 ≤ e.interval ∧
    (processAccelerometerData s p).1.lastStepTime = e.t ∧
    (processAccelerometerData s p).1.stepIntervals.getLast? = some e.interval ∧
    (e.valid = false →
      (processAccelerometerData s p).1.validStepCount = s.validStepCount) := by
  obtain ⟨et, ed, ei, ev⟩ := e
  simp only [processAccelerometerData] at h ⊢
  split_ifs at h ⊢ <;>
    (try simp only [commitStep_event, Option.some.injEq, Event.mk.injEq] at h) <;>
    (try obtain ⟨h1, h2, h3, h4⟩ := h) <;>
    (try subst h1) <;> (try subst h2) <;> (try subst h3) <;> (try subst h4) <;>
    simp_all [afterBuffers, commitStep_lastStepTime, commitStep_getLast,
      commitStep_validCount]

theorem processData_none (s : State) (p : Sample)
    (h : (processAccelerometerData s p).2 = none) :
    (processAccelerometerData s p).1.lastStepTime = s.lastStepTime ∧
    (processAccelerometerData s p).1.stepCount = s.stepCount ∧
    (processAccelerometerData s p).1.validStepCount = s.validStepCount ∧
    (processAccelerometerData s p).1.stepIntervals = s.stepIntervals := by
  simp only [processAccelerometerData] at h ⊢
  split_ifs at h ⊢ <;> simp_all [afterBuffers, commitStep_event]

theorem processData_buffers (s : State) (p : Sample) :
    (processAccelerometerData s p).1.xMovementHistory =
      pushBounded s.xMovementHistory |p.x| 20 ∧
    (processAccelerometerData s p).1.stepData =
      pushBounded s.stepData ⟨p.t, p.mag, p.x, p.y, p.z⟩ 50 := by
  simp only [processAccelerometerData]
  split_ifs <;> simp_all [afterBuffers, commitStep_buffers]

theorem processData_intervals_len (s : State) (p : Sample)
    (h : s.stepIntervals.length ≤ 10) :
    (processAccelerometerData s p).1.stepIntervals.length ≤ 10 := by
  simp only [processAccelerometerData]
  split_ifs <;>
    first
      | simpa [afterBuffers] using h
      | exact commitStep_intervals_len _ _ _ (by simpa [afterBuffers] using h)

theorem runB_cons (s : State) (p : Sample) (rest : List Sample) :
    run s (p :: rest) =
      ((run (processAccelerometerData s p).1 rest).1,
        (processAccelerometerData s p).2.toList ++
          (run (processAccelerometerData s p).1 rest).2) :=
  rfl

theorem runB_spacing : ∀ (samples : List Sample) (s : State),
    chainFrom 300 s.lastStepTime (((run s samples).2).map (·.t)) ∧
    (run s samples).1.lastStepTime =
      (((run s samples).2).map (·.t)).getLastD s.lastStepTime := by
  intro samples
  induction samples with
  | nil =>
    intro s
    exact ⟨trivial, rfl⟩
  | cons p rest ih =>
    intro s
    rcases hpb : (processAccelerometerData s p).2 with _ | e
    · have hkeep := processData_none s p hpb
      have ihs := ih (processAccelerometerData s p).1
      rw [hkeep.1] at ihs
      simp only [runB_cons, hpb, Option.toList_none, List.nil_append]
      exact ihs
    · have hs := processData_event s p e hpb
      have ihs := ih (processAccelerometerData s p).1
      rw [hs.2.2.2.1] at ihs
      simp only [runB_cons, hpb, Option.toList_some, List.singleton_append,
        List.map_cons]
      refine ⟨?_, ?_⟩
      · rw [chainFrom_cons]
        refine ⟨?_, ihs.1⟩
        have h1 := hs.1
        have h2 := hs.2.1
        have h3 := hs.2.2.1
        omega
      · rw [List.getLastD_cons]
        exact ihs.2

theorem runB_bounds : ∀ (samples : List Sample) (s : State),
    s.xMovementHistory.length ≤ 20 → s.stepData.length ≤ 50 →
    s.stepIntervals.length ≤ 10 →
    (run s samples).1.xMovementHistory.length ≤ 20 ∧
    (run s samples).1.stepData.length ≤ 50 ∧
    (run s samples).1.stepIntervals.length ≤ 10 := by
  intro samples
  induction samples with
  | nil => intro s h1 h2 h3; exact ⟨h1, h2, h3⟩
  | cons p rest ih =>
    intro s h1 h2 h3
    have hb := processData_buffers s p
    have hx : (processAccelerometerData s p).1.xMovementHistory.length ≤ 20 := by
      rw [hb.1]; exact pushBounded_length_le _ _ _ h1
    have hd : (processAccelerometerData s p).1.stepData.length ≤ 50 := by
      rw [hb.2]; exact pushBounded_length_le _ _ _ h2
    have hi : (processAccelerometerData s p).1.stepIntervals.length ≤ 10 :=
      processData_intervals_len s p h3
    have hrest := ih (processAccelerometerData s p).1 hx hd hi
    rw [runB_cons]
    exact hrest

end DetectorB

/-- C3 (amended).  In the part_001 step pipeline (`DetectorA`) every
counted step event carries an above-threshold excursion duration within
[50, 400] ms and consecutive counted steps are at least
`MIN_STEP_INTERVAL = 280` ms apart; in the `components/StepDetector.tsx`
pipeline (`DetectorB`) consecutive counted steps are at least
`MIN_STEP_INTERVAL = 300` ms apart, but that detector enforces no
excursion-duration bound at all. -/
theorem stepEvents_duration_and_spacing :
    (∀ samples : List StepCore.Sample,
      (∀ e ∈ DetectorA.events (DetectorA.run DetectorA.initState samples).2,
        50 ≤ e.dur ∧ e.dur ≤ 400) ∧
      List.Chain' (fun a b => 280 ≤ b - a)
        ((DetectorA.events (DetectorA.run DetectorA.initState samples).2).map
          (·.t))) ∧
    (∀ (t0 : Int) (samples : List StepCore.Sample),
      List.Chain' (fun a b => 300 ≤ b - a)
        (((DetectorB.run (DetectorB.initState t0) samples).2).map (·.t))) := by
  constructor
  · intro samples
    refine ⟨(DetectorA.run_spec samples DetectorA.initState).1, ?_⟩
    exact StepCore.chainFrom_chain 280 _ _
      (DetectorA.run_spec samples DetectorA.initState).2.1
  · intro t0 samples
    exact StepCore.chainFrom_chain 300 _ _
      (DetectorB.runB_spacing samples (DetectorB.initState t0)).1

set_option maxRecDepth 100000 in
set_option maxHeartbeats 4000000 in
/-- Witness for C3: the first counted step of the `regularA` trace has a
100 ms excursion, inside the [50, 400] window. -/
theorem stepEvents_duration_witness :
    50 ≤ (⟨1000, 1, 100⟩ : DetectorA.StepEvent).dur ∧
    (⟨1000, 1, 100⟩ : DetectorA.StepEvent).dur ≤ 400 :=
  (stepEvents_duration_and_spacing.1 Traces.regularA).1 ⟨1000, 1, 100⟩
    (by with_unfolding_all decide)

set_option maxRecDepth 100000 in
set_option maxHeartbeats 4000000 in
/-- Counterexample to C3 as stated: `DetectorB` counts (and even
validates) a step whose above-threshold excursion lasted 1000 ms, far
outside [50, 400] — that detector never inspects the excursion
duration. -/
theorem stepEvents_duration_cex :
    (DetectorB.run (DetectorB.initState 0) Traces.longExcursionB).2 =
      [⟨2000, 1000, 2000, true⟩] ∧
    ¬ (∀ e ∈ (DetectorB.run (DetectorB.initState 0) Traces.longExcursionB).2,
        50 ≤ e.dur ∧ e.dur ≤ 400) := by with_unfolding_all decide

/-- C7.  After any sample sequence from a fresh session, the `DetectorA`
baseline equals the arithmetic mean of the magnitude window whenever the
window holds at least 10 entries, and the neutral default 1.0 whenever it
holds fewer. -/
theorem baseline_mean_or_default (samples : List StepCore.Sample) :
    ((DetectorA.run DetectorA.initState samples).1.magnitudeHistory.length < 10 →
      (DetectorA.run DetectorA.initState samples).1.baseline = 1) ∧
    (10 ≤ (DetectorA.run DetectorA.initState samples).1.magnitudeHistory.length →
      (DetectorA.run DetectorA.initState samples).1.baseline =
        StepCore.mean
          (DetectorA.run DetectorA.initState samples).1.magnitudeHistory) :=
  DetectorA.run_baseline samples DetectorA.initState (fun _ => rfl)
    (fun h => absurd h (by decide))

set_option maxRecDepth 100000 in
set_option maxHeartbeats 4000000 in
/-- Witness for C7: after two samples the window holds 2 < 10 entries and
the baseline is still the neutral 1.0. -/
theorem baseline_default_witness :
    (DetectorA.run DetectorA.initState
      [⟨0, 0, 0, 2, 100⟩, ⟨0, 0, 0, 1, 200⟩]).1.baseline = 1 :=
  (baseline_mean_or_default [⟨0, 0, 0, 2, 100⟩, ⟨0, 0, 0, 1, 200⟩]).1
    (by with_unfolding_all decide)

/-- C9.  A `pushBounded` at capacity evicts the oldest entry first, and
after any sample sequence every rolling buffer respects its bound:
magnitude window and movement buffer ≤ 30 and step times ≤ 10 in
`DetectorA`; sway history ≤ 20, sample window ≤ 50 and interval history
≤ 10 in `DetectorB`. -/
theorem rolling_buffers_bounded :
    (∀ (α : Type) (l : List α) (v : α) (cap : Nat),
      l.length = cap → 0 < cap →
      StepCore.pushBounded l v cap = l.tail ++ [v]) ∧
    (∀ samples : List StepCore.Sample,
      (DetectorA.run DetectorA.initState samples).1.magnitudeHistory.length ≤ 30 ∧
      (DetectorA.run DetectorA.initState samples).1.movementBuffer.length ≤ 30 ∧
      (DetectorA.run DetectorA.initState samples).1.stepTimes.length ≤ 10) ∧
    (∀ (t0 : Int) (samples : List StepCore.Sample),
      (DetectorB.run (DetectorB.initState t0) samples).1.xMovementHistory.length ≤ 20 ∧
      (DetectorB.run (DetectorB.initState t0) samples).1.stepData.length ≤ 50 ∧
      (DetectorB.run (DetectorB.initState t0) samples).1.stepIntervals.length ≤ 10) := by
  refine ⟨fun α l v cap h1 h2 => StepCore.pushBounded_evicts l v cap h1 h2, ?_, ?_⟩
  · intro samples
    exact DetectorA.run_bounds samples DetectorA.initState (by decide) (by decide)
      (by decide)
  · intro t0 samples
    exact DetectorB.runB_bounds samples (DetectorB.initState t0)
      (by simp [DetectorB.initState]) (by simp [DetectorB.initState])
      (by simp [DetectorB.initState])

/-- Witness for C9: pushing 40 onto the full three-element buffer
[10, 20, 30] evicts the oldest entry 10. -/
theorem rolling_buffers_evict_witness :
    StepCore.pushBounded ([10, 20, 30] : List ℚ) 40 3 =
      ([10, 20, 30] : List ℚ).tail ++ [40] :=
  rolling_buffers_bounded.1 ℚ [10, 20, 30] 40 3 rfl (by decide)

/-- C8 (amended).  In `DetectorB` a rejected step leaves the valid step
count unchanged while the interval history still records the step's
interval and the sway history still records the sample; in `DetectorA` a
rejected step leaves the step count unchanged and the per-sample movement
buffer is still updated, but the rhythm history (`stepTimes`) is NOT fed
by the rejected event — step times are pushed only for accepted steps. -/
theorem rejected_step_frame :
    (∀ (s : DetectorB.State) (p : StepCore.Sample) (e : DetectorB.Event),
      (DetectorB.processAccelerometerData s p).2 = some e → e.valid = false →
      (DetectorB.processAccelerometerData s p).1.validStepCount = s.validStepCount ∧
      (DetectorB.processAccelerometerData s p).1.stepIntervals.getLast? =
        some e.interval ∧
      (DetectorB.processAccelerometerData s p).1.xMovementHistory =
        StepCore.pushBounded s.xMovementHistory |p.x| 20) ∧
    (∀ (s : DetectorA.State) (p : StepCore.Sample),
      (DetectorA.processMovement s p).2.map DetectorA.Outcome.isRejected =
        some true →
      (DetectorA.processMovement s p).1.stepCount = s.stepCount ∧
      (DetectorA.processMovement s p).1.stepTimes = s.stepTimes ∧
      (DetectorA.processMovement s p).1.movementBuffer =
        StepCore.pushBounded s.movementBuffer ⟨p.x, p.y, p.z⟩ 30) := by
  constructor
  · intro s p e h hv
    obtain ⟨_, _, _, _, hgl, hvc⟩ := DetectorB.processData_event s p e h
    exact ⟨hvc hv, hgl, (DetectorB.processData_buffers s p).1⟩
  · intro s p h
    rcases ho : (DetectorA.processMovement s p).2 with _ | o
    · rw [ho] at h; simp at h
    · cases o with
      | step e => rw [ho] at h; simp [DetectorA.Outcome.isRejected] at h
      | rejected t r =>
        obtain ⟨_, hsc, hst⟩ := DetectorA.processMovement_rejected s p t r ho
        exact ⟨hsc, hst, (DetectorA.processMovement_buffers s p).1⟩

set_option maxRecDepth 100000 in
set_option maxHeartbeats 4000000 in
/-- Witness for C8: a concrete rejected step in each pipeline (no sway in
`DetectorB`, robotic rhythm in `DetectorA`). -/
theorem rejected_step_frame_witness :
    ((DetectorB.processAccelerometerData Traces.noSwayStateB
          Traces.noSwaySampleB).1.validStepCount =
        Traces.noSwayStateB.validStepCount ∧
      (DetectorB.processAccelerometerData Traces.noSwayStateB
          Traces.noSwaySampleB).1.stepIntervals.getLast? =
        some (⟨1000, 500, 1000, false⟩ : DetectorB.Event).interval ∧
      (DetectorB.processAccelerometerData Traces.noSwayStateB
          Traces.noSwaySampleB).1.xMovementHistory =
        StepCore.pushBounded Traces.noSwayStateB.xMovementHistory
          |Traces.noSwaySampleB.x| 20) ∧
    ((DetectorA.processMovement Traces.roboticStateA
          Traces.roboticSampleA).1.stepCount = Traces.roboticStateA.stepCount ∧
      (DetectorA.processMovement Traces.roboticStateA
          Traces.roboticSampleA).1.stepTimes = Traces.roboticStateA.stepTimes ∧
      (DetectorA.processMovement Traces.roboticStateA
          Traces.roboticSampleA).1.movementBuffer =
        StepCore.pushBounded Traces.roboticStateA.movementBuffer
          ⟨Traces.roboticSampleA.x, Traces.roboticSampleA.y,
            Traces.roboticSampleA.z⟩ 30) :=
  ⟨rejected_step_frame.1 Traces.noSwayStateB Traces.noSwaySampleB
      ⟨1000, 500, 1000, false⟩ (by with_unfolding_all decide) rfl,
    rejected_step_frame.2 Traces.roboticStateA Traces.roboticSampleA
      (by with_unfolding_all decide)⟩

set_option maxRecDepth 100000 in
set_option maxHeartbeats 4000000 in
/-- Counterexample to C8 as stated: in `DetectorA` the `regularA` trace
ends with a rejected candidate at t = 3000, yet the rhythm history is NOT
updated with that event — it still holds only the four accepted step
times. -/
theorem rejected_step_frame_cex :
    ((DetectorA.run DetectorA.initState Traces.regularA).2.map
        DetectorA.Outcome.isRejected).getLast? = some true ∧
    (DetectorA.run DetectorA.initState Traces.regularA).1.stepCount = 4 ∧
    (DetectorA.run DetectorA.initState Traces.regularA).1.stepTimes =
      [1000, 1500, 2000, 2500] ∧
    ¬ (3000 ∈ (DetectorA.run DetectorA.initState Traces.regularA).1.stepTimes) := by
  with_unfolding_all decide

/-- C4 (amended).  In `DetectorA`, once at least 3 inter-step intervals
are recorded (4 step times), `validateStepPattern` rejects exactly when
the coefficient of variation is below 0.05 or above 0.6, and the rhythm
checks pass whenever it lies inside the band.  In `DetectorB`,
`validateStep` enforces only the upper bound 0.5: an over-erratic rhythm
is rejected, and a rhythm at or below 0.5 — however mechanically regular —
passes (given adequate sway); there is no lower variance bound. -/
theorem rhythm_variance_band :
    (∀ s : DetectorA.State, 4 ≤ s.stepTimes.length →
      ((DetectorA.calculateRhythmVariance s.stepTimes < 0.05 ∨
          (0.6 : ℚ) < DetectorA.calculateRhythmVariance s.stepTimes) →
        (DetectorA.validateStepPattern s).isValid = false ∧
        ((DetectorA.validateStepPattern s).reason = some .robotic ∨
          (DetectorA.validateStepPattern s).reason = some .erratic)) ∧
      (((0.05 : ℚ) ≤ DetectorA.calculateRhythmVariance s.stepTimes ∧
          DetectorA.calculateRhythmVariance s.stepTimes ≤ 0.6) →
        (DetectorA.validateStepPattern s).reason ≠ some .robotic ∧
        (DetectorA.validateStepPattern s).reason ≠ some .erratic)) ∧
    (∀ (s : DetectorB.State) (interval : Int), 300 ≤ interval → interval ≤ 1500 →
      3 ≤ s.stepIntervals.length →
      (((0.5 : ℚ) < DetectorB.rhythmScore (StepCore.takeLastN s.stepIntervals 5)) →
        (DetectorB.validateStep s interval).1 = false) ∧
      (¬ DetectorB.avgSway s.xMovementHistory < 0.15 →
        DetectorB.rhythmScore (StepCore.takeLastN s.stepIntervals 5) ≤ 0.5 →
        (DetectorB.validateStep s interval).1 = true)) := by
  constructor
  · intro s hlen
    constructor
    · intro hout
      simp only [DetectorA.validateStepPattern]
      rw [if_neg (by omega)]
      rcases hout with hlt | hgt
      · rw [if_pos ⟨hlt, hlen⟩]
        exact ⟨rfl, Or.inl rfl⟩
      · rw [if_neg (fun hx => absurd hgt (by linarith [hx.1])),
          if_pos ⟨hgt, hlen⟩]
        exact ⟨rfl, Or.inr rfl⟩
    · intro hin
      simp only [DetectorA.validateStepPattern]
      rw [if_neg (by omega),
        if_neg (fun hx => absurd hx.1 (by linarith [hin.1])),
        if_neg (fun hx => absurd hx.1 (by linarith [hin.2]))]
      split_ifs <;> simp
  · intro s interval h3 h15 hlen
    constructor
    · intro hscore
      simp only [DetectorB.validateStep]
      rw [if_neg (by omega), if_neg (by omega)]
      split_ifs <;> simp_all
    · intro hsway hscore
      simp only [DetectorB.validateStep]
      rw [if_neg (by omega), if_neg (by omega), if_neg hsway, if_pos hlen,
        if_neg (by linarith)]

set_option maxRecDepth 100000 in
set_option maxHeartbeats 4000000 in
/-- Witness for C4: the robotic state (four step times, 500 ms apart,
coefficient of variation 0 < 0.05) is rejected by `validateStepPattern`
with the robotic reason. -/
theorem rhythm_variance_band_witness :
    (DetectorA.validateStepPattern Traces.roboticStateA).isValid = false ∧
    ((DetectorA.validateStepPattern Traces.roboticStateA).reason =
        some .robotic ∨
      (DetectorA.validateStepPattern Traces.roboticStateA).reason =
        some .erratic) :=
  (rhythm_variance_band.1 Traces.roboticStateA (by decide)).1
    (by with_unfolding_all decide)

set_option maxRecDepth 100000 in
set_option maxHeartbeats 4000000 in
/-- Counterexample to C4 as stated: the `regularB` run reaches a state
with five identical 500 ms intervals — coefficient of variation 0, far
below `MIN_VARIANCE` — yet `DetectorB.validateStep` accepts the next
500 ms step: that validator has no lower variance bound. -/
theorem rhythm_variance_band_cex :
    3 ≤ (DetectorB.run (DetectorB.initState 0)
        Traces.regularB).1.stepIntervals.length ∧
    DetectorB.rhythmScore (StepCore.takeLastN
      (DetectorB.run (DetectorB.initState 0)
        Traces.regularB).1.stepIntervals 5) < 0.05 ∧
    (DetectorB.validateStep
      (DetectorB.run (DetectorB.initState 0) Traces.regularB).1 500).1 = true := by
  with_unfolding_all decide
